import Mathlib

/-!
Verification of the batching sink engine in
`src/business-telemetry/fabric_sinks.py`.

Embedding notes:
- An `Event` is a flat mapping of named fields (a Python dict with string
  values, preserving insertion order), modelled as an association list.
- All buffer mutation in the source happens under the per-sink
  `asyncio.Lock` (`send`, `flush`, and hence `_flush_internal` drain and
  re-fill the buffer with the lock held, including across the awaited
  destination write), so buffer dynamics are modelled sequentially.
- A destination write (`_send_batch_impl`) either returns or raises; it is
  modelled as a function into `Except String Unit` (the `String` is the
  exception text `str(e)`).
- `SinkResult.latency_ms` is wall-clock time and is not modelled; the other
  fields are kept.
- Cancellation of the periodic background task in `stop()` is a no-op in
  the sequential model; `stop()` is then the final `flush()`.
-/

/-- A business event: a flat, insertion-ordered mapping of named string
fields, as produced by the telemetry client (a Python `dict`). -/
abbrev Event := List (String × String)

/-- Python `event.get(key, default)` on the underlying dict: value of the first
binding of `k`, or the default. -/
def getField (e : Event) (k d : String) : String :=
  match e.find? (fun p => p.1 == k) with
  | some p => p.2
  | none => d

/-- The `SinkType` enum from `fabric_sinks.py` (values "eventhub", "onelake",
"console", "file"). -/
inductive SinkType where
  | eventHub
  | oneLake
  | console
  | file
deriving DecidableEq, Repr

/-- Model of `SinkType.value`: the string value of the enum member. -/
def SinkType.value : SinkType → String
  | .eventHub => "eventhub"
  | .oneLake => "onelake"
  | .console => "console"
  | .file => "file"

/-- The `SinkResult` dataclass: outcome of one sink operation.
`latency_ms` is wall-clock and not modelled. -/
structure SinkResult where
  success : Bool
  sinkType : SinkType
  eventsSent : Nat
  errorMessage : Option String := none
deriving DecidableEq, Repr

/-- Model of `BaseSink._flush_internal` (lock held): if the buffer is empty, return a
trivial success; otherwise copy the buffer, clear it, and attempt one
destination write of the drained events; on success the buffer stays empty,
on an exception the drained events are put back (`_buffer.extend` onto the
just-cleared buffer) and a failed `SinkResult` is returned — the exception
is caught and never propagates.  Returns
(buffer afterwards, list of destination-write calls made (each the event
list passed to `_send_batch_impl`), the `SinkResult`). -/
def flushInternal (st : SinkType) (impl : List Event → Except String Unit)
    (buf : List Event) : List Event × List (List Event) × SinkResult :=
  if buf = [] then
    (buf, [], ⟨true, st, 0, none⟩)
  else
    match impl buf with
    | .ok _ => ([], [buf], ⟨true, st, buf.length, none⟩)
    | .error e => (buf, [buf], ⟨false, st, 0, some e⟩)

/-- Model of `BaseSink.send_batch`: perform one destination write of exactly the
given events, catching any exception and converting it into a failed
`SinkResult` (success=False, events_sent=0, error_message=str(e)); on
success events_sent is the full batch length. -/
def sendBatch (st : SinkType) (impl : List Event → Except String Unit)
    (events : List Event) : SinkResult :=
  match impl events with
  | .ok _ => ⟨true, st, events.length, none⟩
  | .error e => ⟨false, st, 0, some e⟩

/-- The value returned by `BaseSink.send`: Python returns the literal `True`
when the batch size is not reached, but returns the `SinkResult` object of
`_flush_internal()` when the append triggers a flush (despite the `-> bool`
annotation), so the return type is a sum. -/
inductive SendReturn where
  | bool (b : Bool)
  | result (r : SinkResult)
deriving DecidableEq, Repr

/-- Model of `BaseSink.send` (under the lock): append the event to the buffer; if the
buffer length reaches the configured batch size, flush immediately and
return `_flush_internal()`'s `SinkResult`; otherwise return `True`.
Returns (buffer afterwards, destination-write calls made, returned value). -/
def send (st : SinkType) (batchSize : Nat)
    (impl : List Event → Except String Unit) (buf : List Event) (e : Event) :
    List Event × List (List Event) × SendReturn :=
  let buf1 := buf ++ [e]
  if batchSize ≤ buf1.length then
    match flushInternal st impl buf1 with
    | (b2, ws, r) => (b2, ws, .result r)
  else
    (buf1, [], .bool true)

/-- A sequence of `send` calls, threading the buffer and accumulating the
destination-write calls they perform. -/
def sendAll (st : SinkType) (batchSize : Nat)
    (impl : List Event → Except String Unit) :
    List Event → List Event → List (List Event) → List Event × List (List Event)
  | [], buf, ws => (buf, ws)
  | e :: es, buf, ws =>
    match send st batchSize impl buf e with
    | (b2, w, _) => sendAll st batchSize impl es b2 (ws ++ w)

/-- Model of `BaseSink.stop`: cancel the periodic flush task (awaiting its
cancellation; a no-op in the sequential model) and then perform one final
`flush()`, i.e. `_flush_internal` under the lock. -/
def stop (st : SinkType) (impl : List Event → Except String Unit)
    (buf : List Event) : List Event × List (List Event) × SinkResult :=
  flushInternal st impl buf

/-- A destination write that always succeeds. -/
def okImpl : List Event → Except String Unit := fun _ => .ok ()

/-- A destination write that always raises (exception text "boom"). -/
def failImpl : List Event → Except String Unit := fun _ => .error "boom"

/-- Render an `Optional[str]` the way a Python f-string does
(`None` renders as "None"). -/
def optStr : Option String → String
  | some s => s
  | none => "None"

/-- Model of `CompositeSink._send_batch_impl`: invoke each child's `send_batch`
sequentially with the full event list, collecting each child's `SinkResult`;
if a result has success=False and `fail_fast` is set, raise
`Exception(f"Sink ... failed: ...")` immediately, so no later child is
invoked.  A child's `send_batch` is `BaseSink.send_batch`, which catches its
own exceptions and always returns a `SinkResult`, so a child is modelled as
a total function into `SinkResult`.  Returns (results of the children
actually invoked, in invocation order; the outcome, where `.error` is the
raised exception). -/
def compositeRun (failFast : Bool)
    (children : List (List Event → SinkResult)) (events : List Event) :
    List SinkResult × Except String Unit :=
  match children with
  | [] => ([], .ok ())
  | c :: cs =>
    let r := c events
    if !r.success && failFast then
      ([r], .error ("Sink " ++ r.sinkType.value ++ " failed: "
        ++ optStr r.errorMessage))
    else
      match compositeRun failFast cs events with
      | (rs, out) => (r :: rs, out)

/-- The Composite Router's public batch-send operation: `BaseSink.send_batch`
wrapped around `CompositeSink._send_batch_impl`.  `CompositeSink.__init__`
passes `SinkType.CONSOLE` to the base constructor, so its own results carry
the console sink type. -/
def compositeSendBatch (failFast : Bool)
    (children : List (List Event → SinkResult)) (events : List Event) :
    SinkResult :=
  sendBatch .console (fun evs => (compositeRun failFast children evs).2) events

/-- A child sink whose `send_batch` always reports failure (an EventHub-like
child whose destination write raises "boom"). -/
def childFail : List Event → SinkResult := fun _ => ⟨false, .eventHub, 0, some "boom"⟩

/-- A child sink whose `send_batch` always succeeds on the full batch (a
OneLake-like child). -/
def childOk : List Event → SinkResult := fun evs => ⟨true, .oneLake, evs.length, none⟩

/-- The inner loop of `EventHubSink._send_batch_impl`, given that the
producer is available.  `L` is the provider's physical byte ceiling per
batch and `size e` the serialized size of an event, so
`event_batch.add(event_data)` raises `ValueError` exactly when the addition
would exceed `L`.  `cur`/`curSz` are the current provider batch and its
accumulated size.  On a rejection the current batch is sent immediately and
a fresh batch is started with the rejected event; if that second `add` is
also rejected (the event alone exceeds the ceiling) the `ValueError`
propagates (`.error`; provider sends already performed on such a failing
path are not tracked — the claims address the non-raising path).  After the
input is exhausted the final batch is sent iff `len(event_batch) > 0`.
Returns the provider batches sent, in order. -/
def ehLoop (L : Nat) (size : Event → Nat) :
    List Event → List Event → Nat → Except String (List (List Event))
  | [], cur, _ => .ok (if 0 < cur.length then [cur] else [])
  | e :: rest, cur, curSz =>
    if curSz + size e ≤ L then
      ehLoop L size rest (cur ++ [e]) (curSz + size e)
    else if size e ≤ L then
      match ehLoop L size rest [e] (size e) with
      | .ok bs => .ok (cur :: bs)
      | .error m => .error m
    else
      .error "EventDataBatch object reaches max_size"

/-- Model of `EventHubSink._send_batch_impl`: when `_get_producer()` returns `None`
(azure-eventhub not installed) the events are skipped silently — no provider
batch is sent and no exception is raised; otherwise the two-level batching
loop runs starting from a fresh provider batch. -/
def ehSendBatchImpl (available : Bool) (L : Nat) (size : Event → Nat)
    (events : List Event) : Except String (List (List Event)) :=
  if !available then .ok []
  else ehLoop L size events [] 0

/-- A UTC calendar date (`datetime.now(timezone.utc)`'s date part). -/
structure DateUTC where
  year : Nat
  month : Nat
  day : Nat
deriving DecidableEq, Repr

/-- Python 02d formatting: pad with a leading zero to width two. -/
def pad2 (n : Nat) : String :=
  if n < 10 then "0" ++ toString n else toString n

/-- Python `s.replace(".", "_")` for single characters: map over the
character data. -/
def replaceDots (s : String) : String :=
  String.mk (s.data.map (fun c => if c = '.' then '_' else c))

/-- Model of `OneLakeSink._get_partition_path`: the partitioned directory
`base_path/event_type/year=Y/month=MM/day=DD` (the event type passed in is
already underscored by `_send_batch_impl`). -/
def oneLakePartitionPath (basePath eventType : String) (d : DateUTC) : String :=
  basePath ++ "/" ++ eventType ++ "/year=" ++ toString d.year
    ++ "/month=" ++ pad2 d.month ++ "/day=" ++ pad2 d.day

/-- Model of `OneLakeSink._get_filename` and of the filename built in `FileSink._send_batch_impl`:
`timestamp_batchid.ext` where the timestamp is
`datetime.now(timezone.utc).strftime("%Y%m%d_%H%M%S")` and the batch id is
`str(uuid.uuid4())[:8]` (the first eight characters of a UUID4, which are
lowercase hex digits); both are taken as parameters since they are
clock/random inputs.  `FileSink` fixes ext to "jsonl"; `OneLakeSink` uses
its `output_format`. -/
def batchFilename (timestamp batchId ext : String) : String :=
  timestamp ++ "_" ++ batchId ++ "." ++ ext

/-- Model of `FileSink._get_output_path`: starting from the output directory, append
the underscored event type when partitioning by type, then the bare date
segments `Y/MM/DD` when partitioning by date (the year unpadded, month and
day 02d-padded — no `year=`/`month=`/`day=` labels). -/
def fileOutputPath (outputDir eventType : String) (byType byDate : Bool)
    (d : DateUTC) : String :=
  let p := outputDir
  let p := if byType then p ++ "/" ++ replaceDots eventType else p
  if byDate then
    p ++ "/" ++ toString d.year ++ "/" ++ pad2 d.month ++ "/" ++ pad2 d.day
  else p

/-- The partition key `event.get("event_type", "unknown").replace(".", "_")`
used by `OneLakeSink._send_batch_impl` to group events. -/
def eventTypeKey (e : Event) : String :=
  replaceDots (getField e "event_type" "unknown")

/-- Keys of a Python dict built by insertion: first-seen order, no
duplicates. -/
def firstSeen (l : List String) : List String :=
  l.foldl (fun acc k => if k ∈ acc then acc else acc ++ [k]) []

/-- The `events_by_type` grouping: one group per distinct key in first-seen
order, each group holding its events in arrival order. -/
def groupByKey (key : Event → String) (events : List Event) :
    List (String × List Event) :=
  (firstSeen (events.map key)).map
    (fun k => (k, events.filter (fun e => key e = k)))

/-- Model of `OneLakeSink._send_batch_impl`, given as the set of file writes it
performs: when `_get_client()` returns `None` (azure-storage-file-datalake
not installed) it returns immediately, silently discarding the events;
otherwise it groups the events by underscored event type and writes one
file per group under the type+date partition path.  The upload itself is
external I/O; its failures are covered abstractly by the `impl` parameter
of the base-sink theorems.  Returns the (partition path, events written)
pairs. -/
def oneLakeSendBatchImpl (available : Bool) (basePath : String) (d : DateUTC)
    (events : List Event) : Except String (List (String × List Event)) :=
  if !available then .ok []
  else .ok ((groupByKey eventTypeKey events).map
    (fun g => (oneLakePartitionPath basePath g.1 d, g.2)))

/-- The separator line `'='*60` printed by the console sink. -/
def eqLine : String := String.mk (List.replicate 60 '=')

/-- Python `json.dumps(event, default=str)` for a flat string-valued dict with the
default separators: a single line with entries rendered "key": "value" and
joined by ", ". -/
def jsonCompact (e : Event) : String :=
  "\x7b" ++ String.intercalate ", "
      (e.map (fun p => "\"" ++ p.1 ++ "\": \"" ++ p.2 ++ "\"")) ++ "\x7d"

/-- Python `json.dumps(event, indent=2, default=str)` for a flat string-valued
dict: a multi-line rendering with two-space indentation. -/
def jsonPretty (e : Event) : String :=
  if e.isEmpty then "\x7b\x7d"
  else
    "\x7b\n" ++ String.intercalate ",\n"
        (e.map (fun p => "  \"" ++ p.1 ++ "\": \"" ++ p.2 ++ "\"")) ++ "\n\x7d"

/-- Model of `ConsoleSink._send_batch_impl`, given as the sequence of `print`
calls it makes (each `print` writes its argument followed by one newline):
with pretty_print a banner block plus an indented JSON dump per event;
without it a single compact JSON line per event. -/
def consolePrints (prettyPrint : Bool) (events : List Event) : List String :=
  events.flatMap (fun event =>
    if prettyPrint then
      ["\n" ++ eqLine,
       "📊 Business Event: " ++ getField event "event_type" "unknown",
       "   Source: " ++ getField event "event_source" "unknown",
       "   Time: " ++ getField event "event_time" "unknown",
       "   ID: " ++ getField event "event_id" "unknown",
       eqLine,
       jsonPretty event]
    else
      [jsonCompact event])

/-- Whether the pattern occurs as a contiguous substring of `s`: some
offset of the character data starts with the pattern. -/
def occursIn (pat s : String) : Bool :=
  (List.range (s.data.length + 1)).any
    (fun i => ((s.data.drop i).take pat.data.length) == pat.data)

/-- A serialized-size function assigning every event size one (for concrete
instances of the Event Hub batching loop). -/
def unitSize : Event → Nat := fun _ => 1

lemma flushInternal_nil (st : SinkType) (impl : List Event → Except String Unit) :
    flushInternal st impl [] = ([], [], ⟨true, st, 0, none⟩) := by
  simp [flushInternal]

lemma flushInternal_ok (st : SinkType) (impl : List Event → Except String Unit)
    (buf : List Event) (hne : buf ≠ []) (h : impl buf = .ok ()) :
    flushInternal st impl buf = ([], [buf], ⟨true, st, buf.length, none⟩) := by
  simp [flushInternal, hne, h]

lemma flushInternal_error (st : SinkType) (impl : List Event → Except String Unit)
    (buf : List Event) (msg : String) (hne : buf ≠ []) (h : impl buf = .error msg) :
    flushInternal st impl buf = (buf, [buf], ⟨false, st, 0, some msg⟩) := by
  simp [flushInternal, hne, h]

/-- C1: on a destination-write exception during flush of a non-empty buffer,
the exception is caught (the model is a total function returning a
`SinkResult`), `flush` returns success=false and events_sent=0 with the
exception text, exactly one destination-write call was made with the failed
batch, and the buffer afterwards contains exactly the events of the failed
batch in their original order; since `send` appends at the end, any events
appended afterwards sit behind them (the failed batch is the prefix). -/
theorem flush_failure_requeues_batch (st : SinkType)
    (impl : List Event → Except String Unit) (buf : List Event) (msg : String)
    (hne : buf ≠ []) (herr : impl buf = .error msg) :
    (flushInternal st impl buf).1 = buf
    ∧ (flushInternal st impl buf).2.1 = [buf]
    ∧ (flushInternal st impl buf).2.2 = ⟨false, st, 0, some msg⟩
    ∧ ∀ later : List Event,
        ((flushInternal st impl buf).1 ++ later).take buf.length = buf := by
  rw [flushInternal_error st impl buf msg hne herr]
  refine ⟨rfl, rfl, rfl, ?_⟩
  intro later
  simp

/-- Witness for C1 at a concrete sink state: console sink, buffer of two
events, destination write raising "boom". -/
theorem flush_failure_requeues_batch_witness :
    (flushInternal .console failImpl [[("a", "1")], [("b", "2")]]).1
        = [[("a", "1")], [("b", "2")]]
    ∧ (flushInternal .console failImpl [[("a", "1")], [("b", "2")]]).2.2
        = ⟨false, .console, 0, some "boom"⟩ := by
  have h := flush_failure_requeues_batch .console failImpl
    [[("a", "1")], [("b", "2")]] "boom" (by decide) rfl
  exact ⟨h.1, h.2.2.1⟩

/-- C3: `stop()` on a sink holding N buffered events cancels the periodic
cycle and performs one final flush: assuming the destination write succeeds,
the events that reach the destination-write call are exactly the N buffered
events (in order, in one call), the result is a success counting N events,
and the buffer is empty afterwards. -/
theorem stop_flushes_all_buffered (st : SinkType)
    (impl : List Event → Except String Unit) (buf : List Event)
    (hok : impl buf = .ok ()) :
    (stop st impl buf).1 = []
    ∧ ((stop st impl buf).2.1).flatten = buf
    ∧ (stop st impl buf).2.2.success = true
    ∧ (stop st impl buf).2.2.eventsSent = buf.length := by
  by_cases hne : buf = []
  · subst hne
    simp [stop, flushInternal_nil]
  · rw [stop, flushInternal_ok st impl buf hne hok]
    simp

/-- Witness for C3: a console sink with three buffered events and a
succeeding destination write. -/
theorem stop_flushes_all_buffered_witness :
    (stop .console okImpl [[("a", "1")], [("b", "2")], [("c", "3")]]).1 = []
    ∧ ((stop .console okImpl [[("a", "1")], [("b", "2")], [("c", "3")]]).2.1).flatten
        = [[("a", "1")], [("b", "2")], [("c", "3")]]
    ∧ (stop .console okImpl [[("a", "1")], [("b", "2")], [("c", "3")]]).2.2.eventsSent = 3 := by
  have h := stop_flushes_all_buffered .console okImpl
    [[("a", "1")], [("b", "2")], [("c", "3")]] rfl
  exact ⟨h.1, h.2.1, h.2.2.2⟩

lemma send_not_full (st : SinkType) (batchSize : Nat)
    (impl : List Event → Except String Unit) (buf : List Event) (e : Event)
    (h : ¬ batchSize ≤ (buf ++ [e]).length) :
    send st batchSize impl buf e = (buf ++ [e], [], .bool true) := by
  simp only [send]
  rw [if_neg h]

lemma send_full_ok (st : SinkType) (batchSize : Nat) (buf : List Event) (e : Event)
    (h : batchSize ≤ (buf ++ [e]).length) :
    send st batchSize okImpl buf e
      = ([], [buf ++ [e]], .result ⟨true, st, (buf ++ [e]).length, none⟩) := by
  simp only [send]
  rw [if_pos h, flushInternal_ok st okImpl (buf ++ [e]) (by simp) rfl]

lemma sendAll_ok_inv (st : SinkType) (B : Nat) (hB : 1 ≤ B) :
    ∀ (es buf : List Event) (ws : List (List Event)), buf.length < B →
      (sendAll st B okImpl es buf ws).2.flatten ++ (sendAll st B okImpl es buf ws).1
          = ws.flatten ++ buf ++ es
      ∧ (sendAll st B okImpl es buf ws).1.length < B
      ∧ ∀ w ∈ (sendAll st B okImpl es buf ws).2, w ∈ ws ∨ w.length = B := by
  intro es
  induction es with
  | nil =>
    intro buf ws hlt
    refine ⟨by simp [sendAll], by simpa [sendAll] using hlt, ?_⟩
    intro w hw
    exact Or.inl (by simpa [sendAll] using hw)
  | cons e es ih =>
    intro buf ws hlt
    by_cases hfull : B ≤ (buf ++ [e]).length
    · have hlen : (buf ++ [e]).length = B := by
        simp only [List.length_append, List.length_singleton]
        simp at hfull
        omega
      have hstep : sendAll st B okImpl (e :: es) buf ws
          = sendAll st B okImpl es [] (ws ++ [buf ++ [e]]) := by
        rw [sendAll, send_full_ok st B buf e hfull]
      obtain ⟨h1, h2, h3⟩ := ih [] (ws ++ [buf ++ [e]])
        (by simp only [List.length_nil]; omega)
      rw [hstep]
      refine ⟨?_, h2, ?_⟩
      · rw [h1]
        simp [List.append_assoc]
      · intro w hw
        rcases h3 w hw with hmem | hlenB
        · rcases List.mem_append.mp hmem with hmem2 | hmem2
          · exact Or.inl hmem2
          · right
            rw [List.mem_singleton.mp hmem2]
            exact hlen
        · exact Or.inr hlenB
    · have hstep : sendAll st B okImpl (e :: es) buf ws
          = sendAll st B okImpl es (buf ++ [e]) ws := by
        rw [sendAll, send_not_full st B okImpl buf e hfull]
        simp
      obtain ⟨h1, h2, h3⟩ := ih (buf ++ [e]) ws (by simp at hfull ⊢; omega)
      rw [hstep]
      refine ⟨?_, h2, h3⟩
      rw [h1]
      simp [List.append_assoc]

/-- C2: for any positive configured batch size B and any sequence of `send`
calls starting from an empty buffer, with destination writes succeeding:
every destination write performed is a complete batch of exactly B events;
the writes, concatenated in submission order, followed by the residual
buffer, reproduce exactly the submitted event sequence (no event delivered
twice, none skipped); and fewer than B events ever remain buffered — i.e. as
soon as the buffer reaches B a flush is triggered before `send` returns. -/
theorem send_batchsize_flush_partition (st : SinkType) (B : Nat)
    (es : List Event) (hB : 1 ≤ B) :
    (sendAll st B okImpl es [] []).2.flatten ++ (sendAll st B okImpl es [] []).1 = es
    ∧ (∀ w ∈ (sendAll st B okImpl es [] []).2, w.length = B)
    ∧ (sendAll st B okImpl es [] []).1.length < B := by
  obtain ⟨h1, h2, h3⟩ := sendAll_ok_inv st B hB es [] []
    (by simp only [List.length_nil]; omega)
  refine ⟨by simpa using h1, ?_, h2⟩
  intro w hw
  rcases h3 w hw with hmem | hlen
  · simp at hmem
  · exact hlen

/-- Witness for C2: batch size 2 and three events sent to a console-type
sink; one write of exactly the first two events is performed and the third
event remains buffered. -/
theorem send_batchsize_flush_partition_witness :
    (sendAll .console 2 okImpl [[("a", "1")], [("b", "2")], [("c", "3")]] [] []).2.flatten
        ++ (sendAll .console 2 okImpl [[("a", "1")], [("b", "2")], [("c", "3")]] [] []).1
        = [[("a", "1")], [("b", "2")], [("c", "3")]]
    ∧ (∀ w ∈ (sendAll .console 2 okImpl [[("a", "1")], [("b", "2")], [("c", "3")]] [] []).2,
        w.length = 2)
    ∧ (sendAll .console 2 okImpl [[("a", "1")], [("b", "2")], [("c", "3")]] [] []).1.length < 2 :=
  send_batchsize_flush_partition .console 2 [[("a", "1")], [("b", "2")], [("c", "3")]]
    (by decide)

/-- C8 (evaluating the code at the failing input): with batch size 1 and a
destination write that raises, `send` on an empty buffer appends the event
and triggers the flush, and then returns the `SinkResult` object of
`_flush_internal()` — success=False, events_sent=0 — not the boolean `True`,
even though the event was accepted into the buffer; this contradicts the
function's own `-> bool` annotation and its docstring ("True if event was
buffered/sent successfully"). -/
theorem send_return_is_flush_result_not_true :
    send .console 1 failImpl [] [("k", "v")]
      = ([[("k", "v")]], [[[("k", "v")]]],
          .result ⟨false, .console, 0, some "boom"⟩)
    ∧ (send .console 1 failImpl [] [("k", "v")]).2.2 ≠ .bool true := by
  constructor
  · rfl
  · decide

/-- C4 counterexample: Composite Router in fail-fast mode with a failing
child A and a succeeding child B at a concrete batch: inside the router the
first failure raises before child B is invoked (only A's result is
collected), but the failure does NOT propagate to the caller of the router's
batch-send operation — the inherited `BaseSink.send_batch` catches the raised
exception and returns it as an ordinary failed `SinkResult`, contradicting
the claim that it is raised to the caller rather than returned as a result. -/
theorem composite_failfast_returns_ordinary_result :
    (compositeRun true [childFail, childOk] [[("k", "v")]]).1
        = [⟨false, .eventHub, 0, some "boom"⟩]
    ∧ compositeSendBatch true [childFail, childOk] [[("k", "v")]]
        = ⟨false, .console, 0, some "Sink eventhub failed: boom"⟩ := by
  exact ⟨rfl, rfl⟩

lemma compositeRun_failfast_head (c : List Event → SinkResult)
    (cs : List (List Event → SinkResult)) (events : List Event)
    (hfail : (c events).success = false) :
    compositeRun true (c :: cs) events
      = ([c events],
          .error ("Sink " ++ (c events).sinkType.value ++ " failed: "
            ++ optStr (c events).errorMessage)) := by
  simp [compositeRun, hfail]

lemma compositeRun_failfast_skip_ok (p : List Event → SinkResult)
    (cs : List (List Event → SinkResult)) (events : List Event)
    (hok : (p events).success = true) :
    compositeRun true (p :: cs) events
      = ((p events) :: (compositeRun true cs events).1,
          (compositeRun true cs events).2) := by
  rcases hr : compositeRun true cs events with ⟨rs, out⟩
  simp [compositeRun, hok, hr]

lemma compositeRun_failfast_first_failure (c : List Event → SinkResult)
    (post : List (List Event → SinkResult)) (events : List Event)
    (hfail : (c events).success = false) :
    ∀ pre : List (List Event → SinkResult),
      (∀ p ∈ pre, (p events).success = true) →
      compositeRun true (pre ++ c :: post) events
        = (pre.map (fun p => p events) ++ [c events],
            .error ("Sink " ++ (c events).sinkType.value ++ " failed: "
              ++ optStr (c events).errorMessage)) := by
  intro pre
  induction pre with
  | nil =>
    intro _
    simpa using compositeRun_failfast_head c post events hfail
  | cons p pre ih =>
    intro hpre
    have hp : (p events).success = true := hpre p (List.mem_cons_self p pre)
    have ih2 := ih (fun q hq => hpre q (List.mem_cons_of_mem p hq))
    rw [List.cons_append,
      compositeRun_failfast_skip_ok p (pre ++ c :: post) events hp, ih2]
    simp

/-- C4 amended: with fail-fast policy, for every child list in which some
child's `send_batch` fails — decomposed as a prefix of succeeding children,
the first failing child, and the remaining children — the failure is raised
immediately inside the router's `_send_batch_impl`: exactly the succeeding
prefix and the failing child are invoked, in order, and no subsequent child
is invoked for that batch; but the caller of the router's public batch-send
operation receives the failure as an ordinary `SinkResult` with
success=false and events_sent=0 (the base-class `send_batch` wrapper
catches the raised exception), not as a raised exception. -/
theorem composite_failfast_aborts_before_later_children
    (pre : List (List Event → SinkResult)) (c : List Event → SinkResult)
    (post : List (List Event → SinkResult)) (events : List Event)
    (hpre : ∀ p ∈ pre, (p events).success = true)
    (hfail : (c events).success = false) :
    compositeRun true (pre ++ c :: post) events
      = (pre.map (fun p => p events) ++ [c events],
          .error ("Sink " ++ (c events).sinkType.value ++ " failed: "
            ++ optStr (c events).errorMessage))
    ∧ compositeSendBatch true (pre ++ c :: post) events
      = ⟨false, .console, 0,
          some ("Sink " ++ (c events).sinkType.value ++ " failed: "
            ++ optStr (c events).errorMessage)⟩ := by
  have h1 := compositeRun_failfast_first_failure c post events hfail pre hpre
  refine ⟨h1, ?_⟩
  simp [compositeSendBatch, sendBatch, h1]

/-- Witness for C4's amended theorem: a succeeding child B ahead of the
failing child A on a one-event batch — B is invoked and succeeds, A fails
and aborts, and the public operation returns an ordinary failed result. -/
theorem composite_failfast_aborts_before_later_children_witness :
    compositeRun true [childOk, childFail] [[("x", "y")]]
      = ([⟨true, .oneLake, 1, none⟩, ⟨false, .eventHub, 0, some "boom"⟩],
          .error "Sink eventhub failed: boom")
    ∧ compositeSendBatch true [childOk, childFail] [[("x", "y")]]
      = ⟨false, .console, 0, some "Sink eventhub failed: boom"⟩ := by
  have h := composite_failfast_aborts_before_later_children [childOk]
    childFail [] [[("x", "y")]]
    (by intro p hp; rw [List.mem_singleton.mp hp]; rfl) rfl
  exact h

lemma compositeRun_besteffort (events : List Event) :
    ∀ children : List (List Event → SinkResult),
      compositeRun false children events
        = (children.map (fun c => c events), .ok ()) := by
  intro children
  induction children with
  | nil => rfl
  | cons c cs ih => simp [compositeRun, ih]

/-- C5: in best-effort mode (the default, fail_fast=False), every child's
`send_batch` is invoked with the full event list and its result collected in
order, and the router's batch write completes without raising (outcome is
ok, so the public send_batch reports success over the whole batch); in
particular with failing child A ahead of succeeding child B, B is still
invoked and its collected result reports success on the full batch. -/
theorem composite_besteffort_runs_all_children
    (children : List (List Event → SinkResult)) (events : List Event) :
    compositeRun false children events
      = (children.map (fun c => c events), .ok ())
    ∧ compositeSendBatch false children events
      = ⟨true, .console, events.length, none⟩
    ∧ compositeRun false [childFail, childOk] events
      = ([⟨false, .eventHub, 0, some "boom"⟩,
          ⟨true, .oneLake, events.length, none⟩], .ok ()) := by
  refine ⟨compositeRun_besteffort events children, ?_, ?_⟩
  · simp [compositeSendBatch, sendBatch, compositeRun_besteffort events children]
  · simp [compositeRun_besteffort events [childFail, childOk], childFail, childOk]

lemma ehLoop_ok (L : Nat) (size : Event → Nat) :
    ∀ (rest cur : List Event), (∀ e ∈ rest, size e ≤ L) →
      ∃ bs, ehLoop L size rest cur ((cur.map size).sum) = .ok bs
        ∧ bs.flatten = cur ++ rest
        ∧ ∀ b ∈ bs, b ≠ [] := by
  intro rest
  induction rest with
  | nil =>
    intro cur h
    by_cases hc : cur = []
    · subst hc
      exact ⟨[], by simp [ehLoop], by simp, by simp⟩
    · refine ⟨[cur], ?_, by simp, ?_⟩
      · have hpos : 0 < cur.length := List.length_pos.mpr hc
        simp [ehLoop, hpos]
      · intro b hb
        rw [List.mem_singleton.mp hb]
        exact hc
  | cons e rest ih =>
    intro cur h
    have hsize : size e ≤ L := h e (List.mem_cons_self e rest)
    have hrest : ∀ x ∈ rest, size x ≤ L := fun x hx => h x (List.mem_cons_of_mem _ hx)
    by_cases hfit : (cur.map size).sum + size e ≤ L
    · obtain ⟨bs, h1, h2, h3⟩ := ih (cur ++ [e]) hrest
      have hsum : ((cur ++ [e]).map size).sum = (cur.map size).sum + size e := by
        simp
      rw [hsum] at h1
      refine ⟨bs, ?_, ?_, h3⟩
      · rw [ehLoop, if_pos hfit]
        exact h1
      · rw [h2]
        simp
    · have hcur : cur ≠ [] := by
        intro hnil
        subst hnil
        simp at hfit
        omega
      obtain ⟨bs, h1, h2, h3⟩ := ih [e] hrest
      have hsum1 : (([e] : List Event).map size).sum = size e := by simp
      rw [hsum1] at h1
      refine ⟨cur :: bs, ?_, ?_, ?_⟩
      · rw [ehLoop, if_neg hfit, if_pos hsize, h1]
      · simp [h2]
      · intro b hb
        rcases List.mem_cons.mp hb with hb1 | hb2
        · rw [hb1]
          exact hcur
        · exact h3 b hb2

/-- C6: when the producer is available and every event fits alone within the
physical byte ceiling, the two-level batching loop succeeds and partitions
the input into consecutive provider sub-batches preserving submission order:
the sent batches concatenate back to exactly the input list (every event
sent exactly once, none skipped or duplicated), and every sent batch —
including the final one, sent only when non-empty — is non-empty. -/
theorem eh_two_level_batching (L : Nat) (size : Event → Nat)
    (events : List Event) (h : ∀ e ∈ events, size e ≤ L) :
    ∃ bs, ehSendBatchImpl true L size events = .ok bs
      ∧ bs.flatten = events
      ∧ ∀ b ∈ bs, b ≠ [] := by
  obtain ⟨bs, h1, h2, h3⟩ := ehLoop_ok L size events [] h
  refine ⟨bs, ?_, by simpa using h2, h3⟩
  simpa [ehSendBatchImpl] using h1

/-- Witness for C6: three unit-size events with a ceiling of two events per
physical batch. -/
theorem eh_two_level_batching_witness :
    ∃ bs, ehSendBatchImpl true 2 unitSize [[("a", "1")], [("b", "2")], [("c", "3")]]
          = .ok bs
      ∧ bs.flatten = [[("a", "1")], [("b", "2")], [("c", "3")]]
      ∧ ∀ b ∈ bs, b ≠ [] :=
  eh_two_level_batching 2 unitSize [[("a", "1")], [("b", "2")], [("c", "3")]]
    (by intro e _; simp [unitSize])

/-- C7 counterexample: for an event of type "product.viewed" flushed on
2024-03-07 UTC with default partitioning, the local file adapter writes
under `base/product_viewed/2024/03/07` — bare date segments — and NOT under
`base/product_viewed/year=2024/month=03/day=07` as the claim asserts for
both adapters. -/
theorem file_adapter_path_lacks_date_labels :
    fileOutputPath "base" "product.viewed" true true ⟨2024, 3, 7⟩
      = "base/product_viewed/2024/03/07"
    ∧ fileOutputPath "base" "product.viewed" true true ⟨2024, 3, 7⟩
      ≠ "base/product_viewed/year=2024/month=03/day=07" := by
  refine ⟨by rfl, by decide⟩

/-- C7 amended: for an event of type "product.viewed" flushed on 2024-03-07
UTC, the OneLake adapter writes under
`base/product_viewed/year=2024/month=03/day=07` (dot replaced by
underscore, labelled Hive-style date segments), while the file adapter
partitions by the same underscored type and the same date but with bare
segments `base/product_viewed/2024/03/07` (no year=/month=/day= labels);
in both adapters the filename is `timestamp_batchid.ext` with the UTC
`%Y%m%d_%H%M%S` timestamp and the 8-hex-character uuid4 prefix. -/
theorem partition_paths_2024_03_07 (base ts id ext : String) :
    oneLakePartitionPath base (replaceDots "product.viewed") ⟨2024, 3, 7⟩
      = base ++ "/product_viewed/year=2024/month=03/day=07"
    ∧ fileOutputPath base "product.viewed" true true ⟨2024, 3, 7⟩
      = base ++ "/product_viewed/2024/03/07"
    ∧ batchFilename ts id ext = ts ++ "_" ++ id ++ "." ++ ext := by
  refine ⟨?_, ?_, rfl⟩
  · show base ++ "/" ++ "product_viewed" ++ "/year=" ++ "2024"
        ++ "/month=" ++ "03" ++ "/day=" ++ "07"
      = base ++ "/product_viewed/year=2024/month=03/day=07"
    simp only [String.append_assoc]
    congr 1
  · show base ++ "/" ++ "product_viewed" ++ "/" ++ "2024"
        ++ "/" ++ "03" ++ "/" ++ "07"
      = base ++ "/product_viewed/2024/03/07"
    simp only [String.append_assoc]
    congr 1

lemma consolePrints_compact (events : List Event) :
    consolePrints false events = events.map jsonCompact := by
  induction events with
  | nil => rfl
  | cons e es ih =>
    simp only [consolePrints, List.flatMap_cons, Bool.false_eq_true, if_false,
      List.map_cons, List.singleton_append] at ih ⊢
    rw [ih]

/-- C9: with pretty-print disabled the console adapter performs exactly one
print call per event of the batch, in order, each printing the compact
single-line JSON serialization of that event; for the concrete batch
holding the single event with event_type "order.placed" and order_id "o1",
the output is exactly one line, it contains both "order.placed" and "o1",
and it holds no newline character. -/
theorem console_compact_one_line_per_event :
    (∀ events : List Event, consolePrints false events = events.map jsonCompact)
    ∧ consolePrints false [[("event_type", "order.placed"), ("order_id", "o1")]]
        = ["\x7b\"event_type\": \"order.placed\", \"order_id\": \"o1\"\x7d"]
    ∧ occursIn "order.placed"
        "\x7b\"event_type\": \"order.placed\", \"order_id\": \"o1\"\x7d" = true
    ∧ occursIn "o1"
        "\x7b\"event_type\": \"order.placed\", \"order_id\": \"o1\"\x7d" = true
    ∧ List.contains
        ("\x7b\"event_type\": \"order.placed\", \"order_id\": \"o1\"\x7d" : String).data
        '\n' = false := by
  exact ⟨consolePrints_compact, rfl, by decide, by decide, by decide⟩

/-- C10: with the optional destination dependency unavailable (the lazily
constructed client handle is None), the EventHub-like and OneLake-like
batch-send implementations discard every event — no provider batch is sent,
no file is written — yet return without raising, so the public `send_batch`
reports success=true with events_sent equal to the full batch length,
indistinguishable from the result of a genuinely successful delivery; and a
flush in this state drains the buffer permanently (buffer empty afterwards,
reported as a successful flush of all buffered events). -/
theorem unavailable_dependency_silently_discards (L : Nat)
    (size : Event → Nat) (basePath : String) (d : DateUTC)
    (events buf : List Event) :
    ehSendBatchImpl false L size events = .ok []
    ∧ sendBatch .eventHub
        (fun evs => (ehSendBatchImpl false L size evs).map (fun _ => ())) events
        = ⟨true, .eventHub, events.length, none⟩
    ∧ sendBatch .eventHub
        (fun evs => (ehSendBatchImpl false L size evs).map (fun _ => ())) events
        = sendBatch .eventHub okImpl events
    ∧ oneLakeSendBatchImpl false basePath d events = .ok []
    ∧ sendBatch .oneLake
        (fun evs => (oneLakeSendBatchImpl false basePath d evs).map (fun _ => ()))
        events
        = ⟨true, .oneLake, events.length, none⟩
    ∧ (flushInternal .eventHub
        (fun evs => (ehSendBatchImpl false L size evs).map (fun _ => ())) buf).1 = []
    ∧ (flushInternal .eventHub
        (fun evs => (ehSendBatchImpl false L size evs).map (fun _ => ())) buf).2.2
        = ⟨true, .eventHub, buf.length, none⟩ := by
  refine ⟨rfl, rfl, rfl, rfl, rfl, ?_, ?_⟩
  · by_cases hb : buf = []
    · rw [hb, flushInternal_nil]
    · rw [flushInternal_ok .eventHub _ buf hb rfl]
  · by_cases hb : buf = []
    · rw [hb, flushInternal_nil]
      simp
    · rw [flushInternal_ok .eventHub _ buf hb rfl]
